import Mathlib

/-
Verification of the rpi_uart Mini-UART kernel driver (src/rpi_uart.c) by
a shallow embedding in Lean.  Bytes are modelled as natural numbers with
explicit reduction modulo 256 where the C code masks with 0xFF, and
32-bit registers as naturals reduced modulo 2 ^ 32 at each MMIOp store.
-/

namespace RpiUart

/-- Error numbers used by the driver (Linux errno values); the handlers
return their negations. -/
def EFAULT : Int := 14

def ENOMEM : Int := 12

/- ----------------------------------------------------------------
   TX path: uart_send_char / uart_send_string (src/rpi_uart.c:80-105).
   We model the sequence of bytes written to the MU IO register.
   ---------------------------------------------------------------- -/

/-- Bytes emitted on the line by uart_send_char (src/rpi_uart.c:80-94):
a linefeed first recurses with carriage return, then the low 8 bits of
the argument are written to the MU IO register. -/
def uart_send_char_out (c : Nat) : List Nat :=
  if c = 10 then [13, c % 256] else [c % 256]

/-- Bytes emitted on the line by uart_send_string (src/rpi_uart.c:96-105):
iterate until the first NUL; for a linefeed the caller emits an extra
carriage return via uart_send_char before sending the byte itself. -/
def uart_send_string_out : List Nat → List Nat
  | [] => []
  | c :: s =>
    if c = 0 then []
    else (if c = 10 then uart_send_char_out 13 else []) ++
      uart_send_char_out c ++ uart_send_string_out s

/-- The per-byte expansion the TX path actually performs on NUL-free
byte strings: a linefeed becomes CR CR LF (one CR from uart_send_string,
one from uart_send_char), every other byte passes through unchanged. -/
def crcrlfExpand (c : Nat) : List Nat :=
  if c = 10 then [13, 13, 10] else [c]

/-- Pointwise concatenation of crcrlfExpand over a byte string. -/
def expandTx : List Nat → List Nat
  | [] => []
  | c :: s => crcrlfExpand c ++ expandTx s

theorem uart_send_string_out_eq_expandTx (s : List Nat)
    (h : ∀ b ∈ s, b ≠ 0 ∧ b < 256) :
    uart_send_string_out s = expandTx s := by
  induction s with
  | nil => rfl
  | cons c s ih =>
    have hc := h c (List.mem_cons_self c s)
    have hs : ∀ b ∈ s, b ≠ 0 ∧ b < 256 := fun b hb => h b (List.mem_cons_of_mem c hb)
    have hmod : c % 256 = c := Nat.mod_eq_of_lt hc.2
    by_cases h10 : c = 10
    · subst h10
      simp [uart_send_string_out, expandTx, crcrlfExpand, uart_send_char_out, ih hs]
    · simp [uart_send_string_out, expandTx, crcrlfExpand, uart_send_char_out,
        hc.1, h10, hmod, ih hs]

theorem uart_send_string_out_append_zero (s : List Nat) :
    uart_send_string_out (s ++ [0]) = uart_send_string_out s := by
  induction s with
  | nil => rfl
  | cons c s ih =>
    by_cases hc : c = 0
    · simp [uart_send_string_out, hc]
    · simp [uart_send_string_out, hc, ih]

theorem uart_send_string_out_takeWhile (s : List Nat) :
    uart_send_string_out s = uart_send_string_out (s.takeWhile (fun b => b != 0)) := by
  induction s with
  | nil => rfl
  | cons c s ih =>
    by_cases hc : c = 0
    · simp [uart_send_string_out, hc, List.takeWhile_cons]
    · simp [uart_send_string_out, hc, List.takeWhile_cons, ih]

/- ----------------------------------------------------------------
   Write handler: uart_proc_write (src/rpi_uart.c:201-222).
   ---------------------------------------------------------------- -/

/-- Result of the proc write handler: the value returned to the caller
and the bytes transmitted on the line. -/
structure WriteResult where
  ret : Int
  tx : List Nat
deriving DecidableEq, Repr

/-- uart_proc_write (src/rpi_uart.c:201-222): truncate the user payload
to min(count, 255) bytes, copy it into a local buffer (copyOk models
whether copy_from_user succeeds), NUL-terminate, transmit it with
uart_send_string, and return the full requested count. -/
def uart_proc_write (payload : List Nat) (copyOk : Bool) : WriteResult :=
  let count := payload.length
  let len := min count 255
  if copyOk then
    ⟨(count : Int), uart_send_string_out (payload.take len ++ [0])⟩
  else
    ⟨-EFAULT, []⟩

/- ----------------------------------------------------------------
   Claims C1, C6, C10.
   ---------------------------------------------------------------- -/

/-- C1 counterexample: writing the 3-byte payload a LF b puts
a, CR, CR, LF, b on the line, not a, CR, LF, b as the claim states,
because both uart_send_string and uart_send_char prepend a CR. -/
theorem claim_C1_counterexample :
    uart_send_string_out [97, 10, 98] = [97, 13, 13, 10, 98] ∧
    uart_send_string_out [97, 10, 98] ≠ [97, 13, 10, 98] := by
  constructor
  · rfl
  · decide

/-- C1 amended: for every NUL-free byte payload handed to the TX path,
each LF transmitted has exactly two CR bytes emitted immediately before
it (one injected by uart_send_string, one by uart_send_char) and every
other byte is transmitted unchanged, in order, with nothing dropped:
the line output is the pointwise CR-CR-LF expansion of the payload. -/
theorem claim_C1_amended (s : List Nat) (h : ∀ b ∈ s, b ≠ 0 ∧ b < 256) :
    uart_send_string_out s = expandTx s :=
  uart_send_string_out_eq_expandTx s h

theorem claim_C1_amended_witness :
    (∀ b ∈ [97, 10, 98], b ≠ 0 ∧ b < 256) ∧
    uart_send_string_out [97, 10, 98] = expandTx [97, 10, 98] :=
  ⟨by decide, claim_C1_amended [97, 10, 98] (by decide)⟩

/-- A 400-byte NUL-free payload whose first byte is a linefeed. -/
def payload400 : List Nat := 10 :: List.replicate 399 97

set_option maxRecDepth 100000 in
/-- C6 counterexample: for the 400-byte NUL-free payload starting with a
linefeed, the write handler returns 400 but the line does not see the
first 255 bytes with LF mapped to CR LF; the LF is expanded to
CR CR LF instead. -/
theorem claim_C6_counterexample :
    (uart_proc_write payload400 true).ret = 400 ∧
    (uart_proc_write payload400 true).tx = 13 :: 13 :: 10 :: List.replicate 254 97 ∧
    (uart_proc_write payload400 true).tx ≠ 13 :: 10 :: List.replicate 254 97 := by
  refine ⟨by decide, by decide, by decide⟩

/-- C6 amended: for every NUL-free byte payload whose copy from user
space succeeds, the write handler copies at most 255 bytes (the prefix
of length min(count, 255)), transmits exactly that truncated prefix with
each LF expanded to CR CR LF, and returns the requested count
regardless of truncation; in particular a 400-byte NUL-free write
transmits its first 255 bytes so expanded and returns 400. -/
theorem claim_C6_amended (payload : List Nat)
    (h : ∀ b ∈ payload, b ≠ 0 ∧ b < 256) :
    (uart_proc_write payload true).ret = payload.length ∧
    (uart_proc_write payload true).tx =
      expandTx (payload.take (min payload.length 255)) := by
  constructor
  · rfl
  · show uart_send_string_out (payload.take (min payload.length 255) ++ [0]) = _
    rw [uart_send_string_out_append_zero]
    exact uart_send_string_out_eq_expandTx _
      (fun b hb => h b (List.mem_of_mem_take hb))

set_option maxRecDepth 100000 in
theorem claim_C6_amended_witness :
    (∀ b ∈ payload400, b ≠ 0 ∧ b < 256) ∧
    ((uart_proc_write payload400 true).ret = payload400.length ∧
     (uart_proc_write payload400 true).tx =
       expandTx (payload400.take (min payload400.length 255))) :=
  ⟨by decide, claim_C6_amended payload400 (by decide)⟩

/-- C10: transmission stops at the first NUL of the copied prefix.  The
handler NUL-terminates after min(count, 255) bytes and uart_send_string
iterates only up to the first zero byte, so the line output is exactly
the CR-CR-LF expansion of the longest NUL-free prefix of the truncated
payload — bytes at or after an embedded NUL are never written to the
peripheral — while the handler still returns the full requested count. -/
theorem claim_C10 (payload : List Nat) (h : ∀ b ∈ payload, b < 256) :
    (uart_proc_write payload true).ret = payload.length ∧
    (uart_proc_write payload true).tx =
      expandTx ((payload.take (min payload.length 255)).takeWhile (fun b => b != 0)) := by
  constructor
  · rfl
  · show uart_send_string_out (payload.take (min payload.length 255) ++ [0]) = _
    rw [uart_send_string_out_append_zero, uart_send_string_out_takeWhile]
    refine uart_send_string_out_eq_expandTx _ (fun b hb => ?_)
    refine ⟨?_, h b (List.mem_of_mem_take (List.takeWhile_subset _ hb))⟩
    have hp := List.mem_takeWhile_imp hb
    simpa using hp

theorem claim_C10_witness :
    (∀ b ∈ [72, 0, 73], b < 256) ∧
    ((uart_proc_write [72, 0, 73] true).ret = 3 ∧
     (uart_proc_write [72, 0, 73] true).tx = [72]) := by
  have h := claim_C10 [72, 0, 73] (by decide)
  exact ⟨by decide, by simpa using h⟩

/- ----------------------------------------------------------------
   Bring-up: uart_init_os (src/rpi_uart.c:18-77).
   We record the sequence of MMIOp operations the function performs
   together with the register file it leaves behind.
   ---------------------------------------------------------------- -/

/-- The memory-mapped registers the driver touches.  MU_IODATA models
the MU IO data register. -/
inductive Reg where
  | GPFSEL1
  | GPPUPPDN0
  | ENABLES
  | MU_CNTL
  | MU_IER
  | MU_IIR
  | MU_LCR
  | MU_MCR
  | MU_LSR
  | MU_BAUD
  | MU_IODATA
deriving DecidableEq, Repr

/-- One MMIOp operation: a 32-bit register read, a 32-bit register
write, a busy-wait of a number of cycles, or a write barrier. -/
inductive MMIOp where
  | rd (r : Reg)
  | wr (r : Reg) (v : Nat)
  | delay (n : Nat)
  | barrier
deriving DecidableEq, Repr

/-- Machine state: the register file plus the trace of MMIOp operations
performed so far. -/
structure MachineState where
  regs : Reg → Nat
  trace : List MMIOp

/-- readl: return the current register value and record the read. -/
def readl (r : Reg) (m : MachineState) : Nat × MachineState :=
  (m.regs r, { m with trace := m.trace ++ [MMIOp.rd r] })

/-- writel: store the low 32 bits of the value and record the write. -/
def writel (v : Nat) (r : Reg) (m : MachineState) : MachineState :=
  { regs := fun x => if x = r then v % 2 ^ 32 else m.regs x,
    trace := m.trace ++ [MMIOp.wr r (v % 2 ^ 32)] }

/-- delay_cycles (src/rpi_uart.c:10-15), recorded as a single trace
event carrying the cycle count. -/
def delay_cycles (n : Nat) (m : MachineState) : MachineState :=
  { m with trace := m.trace ++ [MMIOp.delay n] }

/-- wmb: record the write barrier. -/
def wmb (m : MachineState) : MachineState :=
  { m with trace := m.trace ++ [MMIOp.barrier] }

/-- Modelled from the spec: the constants of the missing header uart.h.
Section 4.1 of the spec fixes alternate-function-5 as value 2 of a
3-bit GPFSEL field and the pull states as 0 = no pull, 1 = pull-up,
2 = pull-down in 2-bit GPPUPPDN fields. -/
def GPIO_FSEL_ALT5 : Nat := 2

/-- Modelled from the spec: no-pull state of a GPPUPPDN field. -/
def GPIO_PUPDN_NONE : Nat := 0

/-- Modelled from the spec: pull-up state of a GPPUPPDN field. -/
def GPIO_PUPDN_UP : Nat := 1

/-- Bitwise complement within a 32-bit word, as the C cast of a negated
mask produces for masks below 2 ^ 32. -/
def compl32 (m : Nat) : Nat := 0xFFFFFFFF ^^^ m

/-- The value uart_init_os stores to GPFSEL1 (src/rpi_uart.c:26-29):
clear the two 3-bit fields at bits 12 and 15, then set both to ALT5. -/
def gpfsel1_val (g : Nat) : Nat :=
  g &&& compl32 ((7 <<< 12) ||| (7 <<< 15)) |||
    ((GPIO_FSEL_ALT5 <<< 12) ||| (GPIO_FSEL_ALT5 <<< 15))

/-- The value uart_init_os stores to GPPUPPDN0 (src/rpi_uart.c:33-36):
clear the two 2-bit fields at bits 28 and 30, then set the TX pin
(bit 28) to no pull and the RX pin (bit 30) to pull-up. -/
def gppuppdn0_val (p : Nat) : Nat :=
  p &&& compl32 ((3 <<< 28) ||| (3 <<< 30)) |||
    ((GPIO_PUPDN_NONE <<< 28) ||| (GPIO_PUPDN_UP <<< 30))

/-- The 16-bit baud divisor computed at src/rpi_uart.c:67. -/
def baud_val : Nat := (500000000 / (9600 * 8) - 1) % 2 ^ 16

/-- uart_init_os (src/rpi_uart.c:18-77) as a state transformer starting
from the given register file with an empty trace for this call. -/
def uart_init_os (regs : Reg → Nat) : MachineState :=
  let m : MachineState := ⟨regs, []⟩
  let p1 := readl Reg.GPFSEL1 m
  let m := writel (gpfsel1_val p1.1) Reg.GPFSEL1 p1.2
  let p2 := readl Reg.GPPUPPDN0 m
  let m := writel (gppuppdn0_val p2.1) Reg.GPPUPPDN0 p2.2
  let m := delay_cycles 150 m
  let p3 := readl Reg.ENABLES m
  let m := writel (p3.1 ||| 0x1) Reg.ENABLES p3.2
  let m := writel 0x0 Reg.MU_CNTL m
  let m := writel 0x0 Reg.MU_IER m
  let m := writel 0x02 Reg.MU_IIR m
  let m := writel 0x04 Reg.MU_IIR m
  let m := writel 0x3 Reg.MU_LCR m
  let m := writel 0x0 Reg.MU_MCR m
  let m := writel baud_val Reg.MU_BAUD m
  let m := writel 0x3 Reg.MU_CNTL m
  wmb m

/-- The registers written by a trace, in order. -/
def writeTargets (tr : List MMIOp) : List Reg :=
  tr.filterMap fun op => match op with
    | MMIOp.wr r _ => some r
    | _ => none

/-- The values written to the MU BAUD register by a trace. -/
def baudWrites (tr : List MMIOp) : List Nat :=
  tr.filterMap fun op => match op with
    | MMIOp.wr Reg.MU_BAUD v => some v
    | _ => none

/-- A register of the Mini-UART block, as opposed to the GPIO bank. -/
def isUartReg : Reg → Bool
  | Reg.GPFSEL1 => false
  | Reg.GPPUPPDN0 => false
  | _ => true

/-- A GPIO muxing register. -/
def isMuxReg (r : Reg) : Bool :=
  r = Reg.GPFSEL1 || r = Reg.GPPUPPDN0

/-- Every write to a Mini-UART register comes strictly after every
write to a GPIO muxing register in the given write-target list. -/
def muxWritesPrecedeUartWrites (rs : List Reg) : Bool :=
  (List.range rs.length).all fun i =>
    (List.range rs.length).all fun j =>
      !(isUartReg (rs.getD i Reg.GPFSEL1)) ||
        !(isMuxReg (rs.getD j Reg.GPFSEL1)) || decide (j < i)

theorem land_lor_land (g c s m : Nat) (hcm : c &&& m = 0) :
    (g &&& c ||| s) &&& m = s &&& m := by
  apply Nat.eq_of_testBit_eq
  intro i
  have h1 : (c.testBit i && m.testBit i) = false := by
    rw [← Nat.testBit_and, hcm]
    exact Nat.zero_testBit i
  simp only [Nat.testBit_and, Nat.testBit_or]
  cases hm : m.testBit i <;> cases hc : c.testBit i <;>
    cases hg : Nat.testBit g i <;> cases hs : s.testBit i <;> simp_all

theorem gpfsel1_val_lt (g : Nat) : gpfsel1_val g < 2 ^ 32 := by
  refine Nat.or_lt_two_pow (Nat.lt_of_le_of_lt Nat.and_le_right ?_) (by decide)
  show compl32 ((7 <<< 12) ||| (7 <<< 15)) < 2 ^ 32
  decide

theorem gppuppdn0_val_lt (p : Nat) : gppuppdn0_val p < 2 ^ 32 := by
  refine Nat.or_lt_two_pow (Nat.lt_of_le_of_lt Nat.and_le_right ?_) (by decide)
  show compl32 ((3 <<< 28) ||| (3 <<< 30)) < 2 ^ 32
  decide

/-- The exact MMIOp trace of one uart_init_os call, as a function of the
initial contents of the three read-modified registers. -/
def uart_init_expected (g p e : Nat) : List MMIOp :=
  [MMIOp.rd Reg.GPFSEL1, MMIOp.wr Reg.GPFSEL1 (gpfsel1_val g),
   MMIOp.rd Reg.GPPUPPDN0, MMIOp.wr Reg.GPPUPPDN0 (gppuppdn0_val p),
   MMIOp.delay 150,
   MMIOp.rd Reg.ENABLES, MMIOp.wr Reg.ENABLES ((e ||| 1) % 2 ^ 32),
   MMIOp.wr Reg.MU_CNTL 0, MMIOp.wr Reg.MU_IER 0,
   MMIOp.wr Reg.MU_IIR 2, MMIOp.wr Reg.MU_IIR 4,
   MMIOp.wr Reg.MU_LCR 3, MMIOp.wr Reg.MU_MCR 0,
   MMIOp.wr Reg.MU_BAUD baud_val, MMIOp.wr Reg.MU_CNTL 3,
   MMIOp.barrier]

theorem uart_init_os_trace (regs : Reg → Nat) :
    (uart_init_os regs).trace =
      uart_init_expected (regs Reg.GPFSEL1) (regs Reg.GPPUPPDN0) (regs Reg.ENABLES) := by
  simp [uart_init_os, uart_init_expected, readl, writel, delay_cycles, wmb]
  exact ⟨gpfsel1_val_lt _, gppuppdn0_val_lt _, by decide⟩

theorem uart_init_os_final_regs (regs : Reg → Nat) :
    (uart_init_os regs).regs Reg.MU_CNTL = 3 ∧
    (uart_init_os regs).regs Reg.MU_LCR = 3 := by
  constructor <;> simp [uart_init_os, readl, writel, delay_cycles, wmb]

/-- C2: uart_init_os performs exactly the specified MMIOp sequence, in
order: RMW of GPFSEL1 with both 3-bit fields at bits 12 and 15 set to
alternate-function-5, RMW of GPPUPPDN0 with the TX field (bit 28) set
to no-pull and the RX field (bit 30) to pull-up, a 150-cycle delay,
ENABLES bit 0 set preserving the other bits, 0 to CNTL, 0 to IER, 2
then 4 to IIR, 3 to LCR, 0 to MCR, the 16-bit divisor to BAUD, 3 to
CNTL and a final write barrier; no Mini-UART register is written before
the GPIO muxing writes, and afterwards CNTL = 3 and LCR = 3. -/
theorem claim_C2 (regs : Reg → Nat) :
    (uart_init_os regs).trace =
      uart_init_expected (regs Reg.GPFSEL1) (regs Reg.GPPUPPDN0) (regs Reg.ENABLES) ∧
    writeTargets (uart_init_os regs).trace =
      [Reg.GPFSEL1, Reg.GPPUPPDN0, Reg.ENABLES, Reg.MU_CNTL, Reg.MU_IER,
       Reg.MU_IIR, Reg.MU_IIR, Reg.MU_LCR, Reg.MU_MCR, Reg.MU_BAUD, Reg.MU_CNTL] ∧
    muxWritesPrecedeUartWrites (writeTargets (uart_init_os regs).trace) = true ∧
    (uart_init_os regs).trace.getLast? = some MMIOp.barrier ∧
    (uart_init_os regs).regs Reg.MU_CNTL = 3 ∧
    (uart_init_os regs).regs Reg.MU_LCR = 3 ∧
    gpfsel1_val (regs Reg.GPFSEL1) &&& (7 <<< 12) = GPIO_FSEL_ALT5 <<< 12 ∧
    gpfsel1_val (regs Reg.GPFSEL1) &&& (7 <<< 15) = GPIO_FSEL_ALT5 <<< 15 ∧
    gppuppdn0_val (regs Reg.GPPUPPDN0) &&& (3 <<< 28) = GPIO_PUPDN_NONE <<< 28 ∧
    gppuppdn0_val (regs Reg.GPPUPPDN0) &&& (3 <<< 30) = GPIO_PUPDN_UP <<< 30 := by
  have htr := uart_init_os_trace regs
  refine ⟨htr, ?_, ?_, ?_, (uart_init_os_final_regs regs).1,
    (uart_init_os_final_regs regs).2, ?_, ?_, ?_, ?_⟩
  · rw [htr]; rfl
  · rw [htr]
    show muxWritesPrecedeUartWrites
      [Reg.GPFSEL1, Reg.GPPUPPDN0, Reg.ENABLES, Reg.MU_CNTL, Reg.MU_IER,
       Reg.MU_IIR, Reg.MU_IIR, Reg.MU_LCR, Reg.MU_MCR, Reg.MU_BAUD, Reg.MU_CNTL] = true
    decide
  · rw [htr]; rfl
  · exact (land_lor_land _ _ _ _ (by decide)).trans (by decide)
  · exact (land_lor_land _ _ _ _ (by decide)).trans (by decide)
  · exact (land_lor_land _ _ _ _ (by decide)).trans (by decide)
  · exact (land_lor_land _ _ _ _ (by decide)).trans (by decide)

/-- C7: the value written to MU BAUD during bring-up is the 16-bit
truncation of (500000000 / (9600 times 8)) - 1, which equals the
truncating division (500000000 / 76800) - 1 = 6509 and fits in the
16-bit divisor register. -/
theorem claim_C7 (regs : Reg → Nat) :
    baudWrites (uart_init_os regs).trace = [baud_val] ∧
    baud_val = 500000000 / 76800 - 1 ∧
    baud_val = 6509 ∧
    baud_val < 2 ^ 16 := by
  refine ⟨?_, by decide, by decide, by decide⟩
  rw [uart_init_os_trace regs]
  rfl

/- ----------------------------------------------------------------
   RX path: uart_data_available / uart_receive_char / uart_proc_read
   (src/rpi_uart.c:107-198).  The peripheral and its environment are an
   abstract deterministic device: polling the line-status register,
   reading the data register and letting one millisecond pass are the
   only interactions, and each may advance the device state.
   ---------------------------------------------------------------- -/

/-- Abstract device: avail polls the line-status data-ready bit,
readData reads the MU IO data register, tick lets 1 ms of time pass. -/
structure Device (σ : Type) where
  avail : σ → Bool × σ
  readData : σ → Nat × σ
  tick : σ → σ

/-- uart_receive_char (src/rpi_uart.c:114-121): if no data is
available return 0, else read the low 8 bits of the data register.
Returns the byte, the device state, and the number of peripheral
accesses performed. -/
def uart_receive_char {σ : Type} (d : Device σ) (s : σ) : Nat × σ × Nat :=
  let a := d.avail s
  if a.1 then
    let r := d.readData a.2
    (r.1 % 256, r.2, 2)
  else
    (0, a.2, 1)

/-- The result of the n-th data_available poll when polling once per
millisecond from the given device state. -/
def nth_poll {σ : Type} (d : Device σ) : σ → Nat → Bool
  | s, 0 => (d.avail s).1
  | s, n + 1 => nth_poll d (d.tick (d.avail s).2) n

/-- The first-byte wait loop of uart_proc_read (src/rpi_uart.c:143-146)
with its post-decremented timeout counter: poll data_available; if data
is available exit with the current timeout value, otherwise decrement,
and if the timeout was already 0 exit with -1; between polls sleep 1 ms.
Returns the final timeout value, the device state, and the poll count. -/
def first_wait {σ : Type} (d : Device σ) : σ → Nat → Nat → Int × σ × Nat
  | s, t, polls =>
    let a := d.avail s
    if a.1 then
      ((t : Int), a.2, polls + 1)
    else
      match t with
      | 0 => (-1, a.2, polls + 1)
      | t2 + 1 => first_wait d (d.tick a.2) t2 (polls + 1)

/-- State carried by the drain loop of uart_proc_read: device state,
collected bytes, the consecutive-no-data counter and the number of
peripheral accesses so far. -/
structure DrainSt (σ : Type) where
  dev : σ
  buf : List Nat
  q : Nat
  polls : Nat

/-- The inner tight drain of uart_proc_read (src/rpi_uart.c:156-161):
while data is available and fewer than bound bytes are collected, call
uart_receive_char and append the byte if it is non-zero, resetting the
no-data counter.  Fuel makes the recursion structural. -/
def inner_drain {σ : Type} (d : Device σ) (bound : Nat) : Nat → DrainSt σ → DrainSt σ
  | 0, st => st
  | fuel + 1, st =>
    let a := d.avail st.dev
    if a.1 && decide (st.buf.length < bound) then
      let r := uart_receive_char d a.2
      if r.1 ≠ 0 then
        inner_drain d bound fuel ⟨r.2.1, st.buf ++ [r.1], 0, st.polls + 1 + r.2.2⟩
      else
        inner_drain d bound fuel ⟨r.2.1, st.buf, st.q, st.polls + 1 + r.2.2⟩
    else
      { st with dev := a.2, polls := st.polls + 1 }

/-- The outer drain loop of uart_proc_read (src/rpi_uart.c:154-182):
run the inner drain, then poll once more; if no data is available sleep
1 ms and bump the no-data counter, leaving the loop once it reaches
300; the loop also ends when bound bytes have been collected. -/
def outer_drain {σ : Type} (d : Device σ) (bound ifuel : Nat) : Nat → DrainSt σ → DrainSt σ
  | 0, st => st
  | fuel + 1, st =>
    if st.buf.length < bound then
      let st1 := inner_drain d bound ifuel st
      let a := d.avail st1.dev
      if a.1 then
        outer_drain d bound ifuel fuel { st1 with dev := a.2, polls := st1.polls + 1 }
      else
        if st1.q + 1 ≥ 300 then
          { st1 with dev := d.tick a.2, q := st1.q + 1, polls := st1.polls + 1 }
        else
          outer_drain d bound ifuel fuel
            { st1 with dev := d.tick a.2, q := st1.q + 1, polls := st1.polls + 1 }
    else
      st

/-- Result of the proc read handler: return value, resulting file
position, bytes copied to the caller, number of peripheral accesses,
final device state, and whether the drain loop was reached. -/
structure ReadResult (σ : Type) where
  ret : Int
  pos : Nat
  bytes : List Nat
  polls : Nat
  dev : σ
  drained : Bool

/-- uart_proc_read (src/rpi_uart.c:124-198): return 0 at a non-zero
file position; otherwise wait up to 1000 polls for a first byte and
return 0 on timeout; otherwise drain into a buffer of capacity
min(255, count), return 0 if nothing was collected, report a
bad-address error if the copy to user space fails (copyOk false), and
otherwise advance the position and return the byte count. -/
def uart_proc_read {σ : Type} (d : Device σ) (copyOk : Bool) (count pos fuel ifuel : Nat)
    (s : σ) : ReadResult σ :=
  if 0 < pos then
    ⟨0, pos, [], 0, s, false⟩
  else
    let w := first_wait d s 1000 0
    if w.1 ≤ 0 then
      ⟨0, pos, [], w.2.2, w.2.1, false⟩
    else
      let st := outer_drain d (min 255 count) ifuel fuel ⟨w.2.1, [], 0, w.2.2⟩
      if st.buf.length = 0 then
        ⟨0, pos, [], st.polls, st.dev, true⟩
      else if copyOk then
        ⟨(st.buf.length : Int), pos + st.buf.length, st.buf, st.polls, st.dev, true⟩
      else
        ⟨-EFAULT, pos, [], st.polls, st.dev, true⟩

/-- A device that replays a fixed list of bytes: data is available
while the list is non-empty, reading pops the head, time has no
effect. -/
def listDev : Device (List Nat) where
  avail := fun s => (!s.isEmpty, s)
  readData := fun s =>
    match s with
    | [] => (0, [])
    | b :: t => (b, t)
  tick := fun s => s

/-- A device on which data first becomes available at the 1001st poll
of a 1 ms polling loop: the state counts elapsed milliseconds and data
is available once 1000 ms have passed. -/
def thrDev : Device Nat where
  avail := fun s => (decide (1000 ≤ s), s)
  readData := fun s => (65, s + 1)
  tick := fun s => s + 1

theorem first_wait_le_zero_iff {σ : Type} (d : Device σ) :
    ∀ (t : Nat) (s : σ) (polls : Nat),
      (first_wait d s t polls).1 ≤ 0 ↔ ∀ n < t, nth_poll d s n = false := by
  intro t
  induction t with
  | zero =>
    intro s polls
    constructor
    · intro _ n hn
      exact absurd hn (Nat.not_lt_zero n)
    · intro _
      simp only [first_wait]
      cases h : (d.avail s).1 <;> simp [h]
  | succ t ih =>
    intro s polls
    simp only [first_wait]
    cases h : (d.avail s).1
    · simp only [h, Bool.false_eq_true, if_false]
      rw [ih (d.tick (d.avail s).2) (polls + 1)]
      constructor
      · intro hall n hn
        cases n with
        | zero => simp [nth_poll, h]
        | succ n =>
          have hh := hall n (Nat.lt_of_succ_lt_succ hn)
          simpa [nth_poll] using hh
      · intro hall n hn
        have hh := hall (n + 1) (Nat.succ_lt_succ hn)
        simpa [nth_poll] using hh
    · simp only [h, if_true]
      constructor
      · intro hle
        exfalso
        simp at hle
        omega
      · intro hall
        exfalso
        have hh := hall 0 (Nat.succ_pos t)
        simp [nth_poll, h] at hh

/-- C3: for a read call entered with cursor 0, the handler stops at the
first-byte wait and returns 0 exactly when data_available was false at
every one of the 1000 polls spaced 1 ms apart; whenever a poll in that
window sees data the handler proceeds to the drain loop instead of
returning there. -/
theorem claim_C3 {σ : Type} (d : Device σ) (copyOk : Bool) (count fuel ifuel : Nat) (s : σ) :
    ((uart_proc_read d copyOk count 0 fuel ifuel s).drained = false ↔
      ∀ n < 1000, nth_poll d s n = false) ∧
    ((uart_proc_read d copyOk count 0 fuel ifuel s).drained = false →
      (uart_proc_read d copyOk count 0 fuel ifuel s).ret = 0) := by
  by_cases h : (first_wait d s 1000 0).1 ≤ 0
  · have hr : uart_proc_read d copyOk count 0 fuel ifuel s =
        ⟨0, 0, [], (first_wait d s 1000 0).2.2, (first_wait d s 1000 0).2.1, false⟩ := by
      simp [uart_proc_read, h]
    rw [hr]
    exact ⟨⟨fun _ => (first_wait_le_zero_iff d 1000 s 0).mp h, fun _ => rfl⟩, fun _ => rfl⟩
  · have hr : (uart_proc_read d copyOk count 0 fuel ifuel s).drained = true := by
      simp only [uart_proc_read]
      rw [if_neg (by omega : ¬ (0 < 0)), if_neg h]
      split
      · rfl
      · split <;> rfl
    constructor
    · rw [hr]
      constructor
      · intro hfalse
        exact absurd hfalse (by simp)
      · intro hall
        exact absurd ((first_wait_le_zero_iff d 1000 s 0).mpr hall) h
    · intro hd
      rw [hr] at hd
      exact absurd hd (by simp)

theorem claim_C3_witness :
    ((uart_proc_read listDev true 10 0 400 400 [72]).drained = true) := by
  have h := (claim_C3 listDev true 10 400 400 [72]).1
  cases hd : (uart_proc_read listDev true 10 0 400 400 [72]).drained
  · exfalso
    have hall := h.mp hd
    have h0 := hall 0 (by omega)
    simp [nth_poll, listDev] at h0
  · rfl

theorem inner_drain_inv {σ : Type} (d : Device σ) (bound : Nat) :
    ∀ (fuel : Nat) (st : DrainSt σ),
      st.buf.length ≤ bound → (∀ b ∈ st.buf, b ≠ 0) →
      (inner_drain d bound fuel st).buf.length ≤ bound ∧
      (∀ b ∈ (inner_drain d bound fuel st).buf, b ≠ 0) := by
  intro fuel
  induction fuel with
  | zero =>
    intro st h1 h2
    exact ⟨h1, h2⟩
  | succ fuel ih =>
    intro st h1 h2
    simp only [inner_drain]
    by_cases hc : ((d.avail st.dev).1 && decide (st.buf.length < bound)) = true
    · rw [if_pos hc]
      have hc2 := hc
      simp only [Bool.and_eq_true, decide_eq_true_eq] at hc2
      by_cases hz : (uart_receive_char d (d.avail st.dev).2).1 ≠ 0
      · rw [if_pos hz]
        apply ih
        · simp only [List.length_append, List.length_singleton]
          omega
        · intro b hb
          rcases List.mem_append.mp hb with hb1 | hb2
          · exact h2 b hb1
          · rw [List.mem_singleton.mp hb2]
            exact hz
      · rw [if_neg hz]
        exact ih _ h1 h2
    · rw [if_neg hc]
      exact ⟨h1, h2⟩

theorem outer_drain_inv {σ : Type} (d : Device σ) (bound ifuel : Nat) :
    ∀ (fuel : Nat) (st : DrainSt σ),
      st.buf.length ≤ bound → (∀ b ∈ st.buf, b ≠ 0) →
      (outer_drain d bound ifuel fuel st).buf.length ≤ bound ∧
      (∀ b ∈ (outer_drain d bound ifuel fuel st).buf, b ≠ 0) := by
  intro fuel
  induction fuel with
  | zero =>
    intro st h1 h2
    exact ⟨h1, h2⟩
  | succ fuel ih =>
    intro st h1 h2
    simp only [outer_drain]
    by_cases hb : st.buf.length < bound
    · rw [if_pos hb]
      have hst1 := inner_drain_inv d bound ifuel st h1 h2
      by_cases ha : (d.avail (inner_drain d bound ifuel st).dev).1 = true
      · rw [if_pos ha]
        exact ih _ hst1.1 hst1.2
      · rw [if_neg ha]
        by_cases hq : (inner_drain d bound ifuel st).q + 1 ≥ 300
        · rw [if_pos hq]
          exact hst1
        · rw [if_neg hq]
          exact ih _ hst1.1 hst1.2
    · rw [if_neg hb]
      exact ⟨h1, h2⟩

/-- C4: for every read call with caller capacity count, the number of
collected bytes never exceeds min(255, count) — so the terminator index
stays within the 256-byte buffer — the returned bytes are exactly the
collected bytes (all non-zero, so the NUL terminator is never among
them), and a non-negative return value equals their number. -/
theorem claim_C4 {σ : Type} (d : Device σ) (copyOk : Bool) (count pos fuel ifuel : Nat)
    (s : σ) :
    (uart_proc_read d copyOk count pos fuel ifuel s).bytes.length ≤ min 255 count ∧
    (∀ b ∈ (uart_proc_read d copyOk count pos fuel ifuel s).bytes, b ≠ 0) ∧
    (0 ≤ (uart_proc_read d copyOk count pos fuel ifuel s).ret →
      (uart_proc_read d copyOk count pos fuel ifuel s).ret =
        ((uart_proc_read d copyOk count pos fuel ifuel s).bytes.length : Int)) := by
  have hdrain := outer_drain_inv d (min 255 count) ifuel fuel
    ⟨(first_wait d s 1000 0).2.1, [], 0, (first_wait d s 1000 0).2.2⟩
    (by simp) (by simp)
  simp only [uart_proc_read]
  split
  · simp
  · split
    · simp
    · split
      · simp
      · split
        · exact ⟨hdrain.1, hdrain.2, fun _ => rfl⟩
        · refine ⟨by simp, by simp, ?_⟩
          intro habs
          exfalso
          have : (0 : Int) ≤ -EFAULT := habs
          simp [EFAULT] at this

theorem claim_C4_witness :
    (uart_proc_read listDev true 10 0 400 400 [72, 73]).bytes.length ≤ min 255 10 ∧
    (∀ b ∈ (uart_proc_read listDev true 10 0 400 400 [72, 73]).bytes, b ≠ 0) ∧
    (0 ≤ (uart_proc_read listDev true 10 0 400 400 [72, 73]).ret →
      (uart_proc_read listDev true 10 0 400 400 [72, 73]).ret =
        ((uart_proc_read listDev true 10 0 400 400 [72, 73]).bytes.length : Int)) :=
  claim_C4 listDev true 10 0 400 400 [72, 73]

theorem uart_proc_read_gate {σ : Type} (d : Device σ) (copyOk : Bool)
    (count pos fuel ifuel : Nat) (s : σ) (h : 0 < pos) :
    uart_proc_read d copyOk count pos fuel ifuel s = ⟨0, pos, [], 0, s, false⟩ := by
  simp [uart_proc_read, h]

theorem uart_proc_read_ret_pos {σ : Type} (d : Device σ) (copyOk : Bool)
    (count pos fuel ifuel : Nat) (s : σ)
    (h : 1 ≤ (uart_proc_read d copyOk count pos fuel ifuel s).ret) :
    (uart_proc_read d copyOk count pos fuel ifuel s).pos =
      pos + (uart_proc_read d copyOk count pos fuel ifuel s).bytes.length ∧
    1 ≤ (uart_proc_read d copyOk count pos fuel ifuel s).bytes.length := by
  by_cases h0 : 0 < pos
  · rw [uart_proc_read_gate d copyOk count pos fuel ifuel s h0] at h
    exact absurd h (by simp)
  · by_cases h1 : (first_wait d s 1000 0).1 ≤ 0
    · simp [uart_proc_read, h0, h1] at h
    · by_cases h2 : (outer_drain d (min 255 count) ifuel fuel
          ⟨(first_wait d s 1000 0).2.1, [], 0, (first_wait d s 1000 0).2.2⟩).buf.length = 0
      · simp [uart_proc_read, h0, h1, h2] at h
      · cases copyOk with
        | false => simp [uart_proc_read, h0, h1, h2, EFAULT] at h
        | true =>
          simp only [uart_proc_read, h0, if_false, h1, if_true] at h ⊢
          rw [if_neg h2] at h ⊢
          refine ⟨rfl, ?_⟩
          have hcast : (1 : Int) ≤ ((outer_drain d (min 255 count) ifuel fuel
            ⟨(first_wait d s 1000 0).2.1, [], 0, (first_wait d s 1000 0).2.2⟩).buf.length : Int) := h
          exact_mod_cast hcast

set_option maxRecDepth 1000000 in
/-- C5 counterexample: on a device where data first becomes available
at the 1001st poll, a first read call returns 0 bytes (n = 0 satisfies
the claim premise n ≥ 0) and leaves the cursor at 0, yet the next read
call on the same cursor polls the peripheral again and even returns a
byte instead of returning 0 without polling. -/
theorem claim_C5_counterexample :
    (uart_proc_read thrDev true 1 0 400 400 0).ret = 0 ∧
    (uart_proc_read thrDev true 1 0 400 400 0).pos = 0 ∧
    (uart_proc_read thrDev true 1
        (uart_proc_read thrDev true 1 0 400 400 0).pos 400 400
        (uart_proc_read thrDev true 1 0 400 400 0).dev).ret = 1 ∧
    (uart_proc_read thrDev true 1
        (uart_proc_read thrDev true 1 0 400 400 0).pos 400 400
        (uart_proc_read thrDev true 1 0 400 400 0).dev).polls ≠ 0 := by
  refine ⟨by decide, by decide, by decide, by decide⟩

/-- C5 amended: if a single read call on the rx node returns n ≥ 1
bytes, the next read call on the same cursor returns 0 without polling
the peripheral — the cursor gate fires before any data_available poll,
so the result has zero peripheral accesses and an unchanged device
state.  (For n = 0 the cursor is not advanced and the next call does
poll the peripheral.) -/
theorem claim_C5_amended {σ : Type} (d : Device σ) (copyOk : Bool)
    (count pos fuel ifuel : Nat) (s : σ)
    (h : 1 ≤ (uart_proc_read d copyOk count pos fuel ifuel s).ret) :
    uart_proc_read d copyOk count
        (uart_proc_read d copyOk count pos fuel ifuel s).pos fuel ifuel
        (uart_proc_read d copyOk count pos fuel ifuel s).dev =
      ⟨0, (uart_proc_read d copyOk count pos fuel ifuel s).pos, [], 0,
        (uart_proc_read d copyOk count pos fuel ifuel s).dev, false⟩ := by
  apply uart_proc_read_gate
  have hp := uart_proc_read_ret_pos d copyOk count pos fuel ifuel s h
  omega

set_option maxRecDepth 1000000 in
theorem claim_C5_amended_witness :
    1 ≤ (uart_proc_read listDev true 10 0 400 400 [104, 105]).ret ∧
    uart_proc_read listDev true 10
        (uart_proc_read listDev true 10 0 400 400 [104, 105]).pos 400 400
        (uart_proc_read listDev true 10 0 400 400 [104, 105]).dev =
      ⟨0, (uart_proc_read listDev true 10 0 400 400 [104, 105]).pos, [], 0,
        (uart_proc_read listDev true 10 0 400 400 [104, 105]).dev, false⟩ :=
  ⟨by decide, claim_C5_amended listDev true 10 0 400 400 [104, 105] (by decide)⟩

set_option maxRecDepth 1000000 in
/-- C9 counterexample: when the copy to user space fails after a byte
was received, the read handler does return the bad-address error with
the cursor not advanced, but the peripheral state has changed: the byte
was drained from the RX FIFO and is lost. -/
theorem claim_C9_counterexample :
    (uart_proc_read listDev false 16 0 400 400 [72]).ret = -EFAULT ∧
    (uart_proc_read listDev false 16 0 400 400 [72]).pos = 0 ∧
    (uart_proc_read listDev false 16 0 400 400 [72]).dev = [] ∧
    ([] : List Nat) ≠ [72] := by
  refine ⟨by decide, by decide, by decide, by decide⟩

/-- C9 amended: if the copy to user space fails in the read handler,
the handler returns the bad-address error (or 0 when nothing was
collected) and the cursor is not advanced, but bytes already drained
from the RX FIFO are lost; if the copy from user space fails in the
write handler, it returns the bad-address error and no byte is
transmitted, with no peripheral state change. -/
theorem claim_C9_amended {σ : Type} (d : Device σ) (count pos fuel ifuel : Nat) (s : σ)
    (payload : List Nat) :
    ((uart_proc_read d false count pos fuel ifuel s).pos = pos ∧
     (uart_proc_read d false count pos fuel ifuel s).bytes = [] ∧
     ((uart_proc_read d false count pos fuel ifuel s).ret = 0 ∨
      (uart_proc_read d false count pos fuel ifuel s).ret = -EFAULT)) ∧
    ((uart_proc_write payload false).ret = -EFAULT ∧
     (uart_proc_write payload false).tx = []) := by
  refine ⟨?_, rfl, rfl⟩
  simp only [uart_proc_read]
  split
  · exact ⟨rfl, rfl, Or.inl rfl⟩
  · split
    · exact ⟨rfl, rfl, Or.inl rfl⟩
    · split
      · exact ⟨rfl, rfl, Or.inl rfl⟩
      · split
        · rename_i hfalse
          exact absurd hfalse (by simp)
        · exact ⟨rfl, rfl, Or.inr rfl⟩

/- ----------------------------------------------------------------
   Lifecycle: uart_driver_init (src/rpi_uart.c:235-281).
   ---------------------------------------------------------------- -/

/-- Resource actions performed during module load: mapping and
unmapping the two MMIOp regions, running the bring-up, creating and
removing the two proc nodes, and emitting the banner. -/
inductive LAct where
  | mapGpio
  | unmapGpio
  | mapUart
  | unmapUart
  | bringUp
  | createTx
  | removeTx
  | createRx
  | banner
deriving DecidableEq, Repr

/-- uart_driver_init (src/rpi_uart.c:235-281): map GPIO, map the
auxiliary region, run the bring-up, create the tx node, create the rx
node, each failure unwinding the acquisitions made so far and
returning the out-of-memory error.  The four flags say whether each
fallible external call succeeds.  The result is the return value and
the ordered list of resource actions performed. -/
def uart_driver_init (gpioOk uartOk txOk rxOk : Bool) : Int × List LAct :=
  if !gpioOk then
    (-ENOMEM, [])
  else if !uartOk then
    (-ENOMEM, [LAct.mapGpio, LAct.unmapGpio])
  else if !txOk then
    (-ENOMEM, [LAct.mapGpio, LAct.mapUart, LAct.bringUp,
      LAct.unmapUart, LAct.unmapGpio])
  else if !rxOk then
    (-ENOMEM, [LAct.mapGpio, LAct.mapUart, LAct.bringUp, LAct.createTx,
      LAct.removeTx, LAct.unmapUart, LAct.unmapGpio])
  else
    (0, [LAct.mapGpio, LAct.mapUart, LAct.bringUp, LAct.createTx,
      LAct.createRx, LAct.banner])

/-- Resources still owned after a load attempt: acquisitions minus the
matching releases, for the GPIO mapping, the auxiliary mapping, the tx
node and the rx node. -/
def ownedAfter (tr : List LAct) : Nat × Nat × Nat × Nat :=
  (tr.count LAct.mapGpio - tr.count LAct.unmapGpio,
   tr.count LAct.mapUart - tr.count LAct.unmapUart,
   tr.count LAct.createTx - tr.count LAct.removeTx,
   tr.count LAct.createRx)

/-- C8: if creation of the tx node fails during load, both MMIOp
mappings are released and load returns the out-of-memory error; if
creation of the rx node fails, the tx node is removed and then both
mappings are released, again returning out-of-memory; after any failed
load the driver owns no MMIOp mapping and no proc node. -/
theorem claim_C8 (gpioOk uartOk txOk rxOk : Bool) :
    (gpioOk = true → uartOk = true → txOk = false →
      (uart_driver_init gpioOk uartOk txOk rxOk).1 = -ENOMEM ∧
      (uart_driver_init gpioOk uartOk txOk rxOk).2 =
        [LAct.mapGpio, LAct.mapUart, LAct.bringUp,
         LAct.unmapUart, LAct.unmapGpio]) ∧
    (gpioOk = true → uartOk = true → txOk = true → rxOk = false →
      (uart_driver_init gpioOk uartOk txOk rxOk).1 = -ENOMEM ∧
      (uart_driver_init gpioOk uartOk txOk rxOk).2 =
        [LAct.mapGpio, LAct.mapUart, LAct.bringUp, LAct.createTx,
         LAct.removeTx, LAct.unmapUart, LAct.unmapGpio]) ∧
    ((uart_driver_init gpioOk uartOk txOk rxOk).1 ≠ 0 →
      ownedAfter (uart_driver_init gpioOk uartOk txOk rxOk).2 = (0, 0, 0, 0)) := by
  cases gpioOk <;> cases uartOk <;> cases txOk <;> cases rxOk <;>
    refine ⟨fun h1 h2 h3 => ?_, fun h1 h2 h3 h4 => ?_, fun h => ?_⟩ <;>
    first
      | exact absurd h1 (by decide)
      | exact absurd h2 (by decide)
      | exact absurd h3 (by decide)
      | exact absurd h4 (by decide)
      | exact absurd rfl h
      | decide

theorem claim_C8_witness :
    ((uart_driver_init true true false true).1 = -ENOMEM ∧
     (uart_driver_init true true false true).2 =
       [LAct.mapGpio, LAct.mapUart, LAct.bringUp,
        LAct.unmapUart, LAct.unmapGpio]) ∧
    ((uart_driver_init true true true false).1 = -ENOMEM ∧
     (uart_driver_init true true true false).2 =
       [LAct.mapGpio, LAct.mapUart, LAct.bringUp, LAct.createTx,
        LAct.removeTx, LAct.unmapUart, LAct.unmapGpio]) ∧
    ownedAfter (uart_driver_init true true false true).2 = (0, 0, 0, 0) :=
  ⟨(claim_C8 true true false true).1 rfl rfl rfl,
   (claim_C8 true true true false).2.1 rfl rfl rfl rfl,
   (claim_C8 true true false true).2.2 (by decide)⟩

end RpiUart
